import Mathlib

/-!
Verification development for the time-indexed record reader
`davitpy.pydarn.sdio.DataTypes.DataPtr` (file src/davitpy/pydarn/sdio/DataTypes.py).

Modelling conventions.

Timestamps: a record carries its time as seconds since the Unix epoch, and the
reader compares `datetime.utcfromtimestamp(record_time)` against the `datetime`
bounds `sTime` and `eTime`.  Since `utcfromtimestamp` is a strictly monotone
injection, all comparisons and dictionary-key equalities are preserved if both
record times and bounds are represented in one integer timeline; we therefore
use `Int` for both, and `utcfromtimestamp` is the identity embedding.

Python 2 semantics kept by the model: comparing a `datetime` with `None` using
an order operator raises `TypeError`; `and`/`or` short-circuit, so the `None`
comparison is only reached when the earlier conjunct or disjunct allows it;
`file.seek` returns `None` while the dmap codec seek returns the new offset;
an unbound name raises `NameError`; calling a method with a surplus positional
argument raises `TypeError`.

The binary record codec (module `davitpy.pydarn.dmapio`, not part of the core)
is out of scope for the source and is modelled from the spec, section 6:
`decodeNext(fd) -> Record | EndOfStream`, `tellOffset(fd) -> ByteOffset`,
`seekOffset(fd, ByteOffset) -> ByteOffset`.  A dmap file is a sequence of
records, each occupying a block of bytes; decoding succeeds exactly at the
byte offset where a record starts and consumes that record, reporting
end-of-stream at or past the end of data (and at any position where no record
starts).
-/

/-- Python exception kinds that the modelled code can raise. -/
inductive PyErr where
  | typeError
  | nameError
  | keyError
  | assertionError
  | stopIteration
  deriving DecidableEq, Repr

/-- The dataType argument of the constructor: a supported container name
(the method dictionaries have keys for the dmap and json containers), or any
other string (constructor `other`), which the constructor assertion refuses. -/
inductive DType where
  | dmap
  | json
  | other
  deriving DecidableEq, Repr

/-- Modelled from the spec: one decoded binary record, reduced to the two
attributes the reader consumes, the epoch time and the scan flag. -/
structure DmapRec where
  time : Int
  scan : Int
  deriving DecidableEq, Repr

/-- Modelled from the spec: a binary (dmap) data file as the binary codec sees
it: the sequence of records together with the byte length each one occupies.
Record number i starts at the byte offset given by the sum of the lengths of
records 0..i-1. -/
structure DmapFile where
  recs : List (DmapRec × Nat)
  deriving DecidableEq, Repr

/-- A Python dict mapping timestamps to byte offsets, in insertion order.
Assignment `d[k] = v` updates the existing entry for `k` in place if present,
otherwise appends a new entry. -/
abbrev PyDict := List (Int × Nat)

/-- Python dict assignment `d[k] = v`: update in place or append. -/
def dinsert : PyDict → Int → Nat → PyDict
  | [], k, v => [(k, v)]
  | (k', v') :: rest, k, v =>
      if k' = k then (k, v) :: rest else (k', v') :: dinsert rest k v

/-- Python dict lookup `d[k]` (as a total function into Option). -/
def dlookup : PyDict → Int → Option Nat
  | [], _ => none
  | (k', v') :: rest, k => if k' = k then some v' else dlookup rest k

/-- Python `d.keys()`. -/
def dkeys (d : PyDict) : List Int := d.map Prod.fst

/-- Python `d.values()`. -/
def dvalues (d : PyDict) : List Nat := d.map Prod.snd

/-- Well-formedness of a dict: keys occur at most once (true of every Python
dict, and preserved by `dinsert`). -/
def DictWF (d : PyDict) : Prop := (dkeys d).Nodup

/-- Byte offset of record number i within a record list: the sum of the byte
lengths of the records before it. -/
def prefLen : List (DmapRec × Nat) → Nat → Nat
  | _, 0 => 0
  | [], _ + 1 => 0
  | (_, len) :: rest, i + 1 => len + prefLen rest i

/-- Byte offset at which record number i of a dmap file starts. -/
def recStart (f : DmapFile) (i : Nat) : Nat := prefLen f.recs i

/-- Total byte length of the data in a dmap file (the end-of-stream offset). -/
def totalLen (f : DmapFile) : Nat := (f.recs.map Prod.snd).sum

/-- The reader state: the attributes set up by `DataPtr.__init__` plus the
stream position of the underlying file handle (`_fd`/`_ptr`).  `opened` is
true when the file pointer exists and is not closed. -/
structure DataPtr where
  sTime : Int
  eTime : Option Int
  dType : DType
  recordIndex : Option PyDict
  scanStartIndex : Option PyDict
  opened : Bool
  pos : Nat
  deriving DecidableEq, Repr

/-- Embedding of `DataPtr.__init__` (lines 85-132).  The input checks are the
three assertions: sTime is a datetime (type-guaranteed here), dataType is a
key of the method dictionaries, eTime is None or a datetime (type-guaranteed).
There is no comparison of sTime with eTime anywhere in the constructor.  The
per-dataType methods are bound from the method dictionaries; that binding is
rendered below by dispatching on the immutable `dType` field. -/
def DataPtr.init (sTime : Int) (dataType : DType) (eTime : Option Int) :
    Except PyErr DataPtr :=
  match dataType with
  | .other => .error .assertionError
  | _ => .ok { sTime := sTime, eTime := eTime, dType := dataType,
               recordIndex := none, scanStartIndex := none,
               opened := false, pos := 0 }

/-- Embedding of `DataPtr.open` (lines 143-147): acquires the handle; the
fresh handle is positioned at byte 0. -/
def DataPtr.openFile (p : DataPtr) : DataPtr :=
  { p with opened := true, pos := 0 }

/-- Embedding of `DataPtr.close` (lines 149-156). -/
def DataPtr.close (p : DataPtr) : DataPtr :=
  { p with opened := false }

/-- The scan loop of `__createIndexDmap` (lines 182-195): starting from a
rewound stream, repeatedly note the offset, decode the next record, stop at
end-of-stream; a decoded record is inserted into recordDict (and, when its
scan flag is 1, into scanStartDict) when
`utcfromtimestamp(time) >= sTime and utcfromtimestamp(time) <= eTime`.
Python short-circuits `and`, so when eTime is None the TypeError from
comparing a datetime with None is raised exactly when the first conjunct
holds; inspecting the eTime option before the first conjunct (as the `none`
equation below does) is observably identical because the comparison itself is
pure. -/
def createIndexDmapScan (s : Int) :
    Option Int → List (DmapRec × Nat) → Nat → PyDict → PyDict →
    Except PyErr (PyDict × PyDict)
  | _, [], _, recordDict, scanStartDict => .ok (recordDict, scanStartDict)
  | none, (r, len) :: rest, offset, recordDict, scanStartDict =>
      if s ≤ r.time then .error .typeError
      else createIndexDmapScan s none rest (offset + len) recordDict scanStartDict
  | some e, (r, len) :: rest, offset, recordDict, scanStartDict =>
      if s ≤ r.time ∧ r.time ≤ e then
        let recordDict' := dinsert recordDict r.time offset
        let scanStartDict' :=
          if r.scan = 1 then dinsert scanStartDict r.time offset else scanStartDict
        createIndexDmapScan s (some e) rest (offset + len) recordDict' scanStartDict'
      else createIndexDmapScan s (some e) rest (offset + len) recordDict scanStartDict

/-- Embedding of `__createIndexDmap` (lines 166-200).  It saves the current
offset, rewinds, runs the scan loop (after which the stream sits at
end-of-data), stores recordIndex, and then calls `self.__offsetSeekDmap(
starting_offset)` with force left at its default False: since recordIndex has
just been assigned, that call reduces to the membership test on the new dict
values, seeking only when the saved offset is one of the indexed offsets;
finally scanStartIndex is stored and both dicts are returned. -/
def createIndexDmap (p : DataPtr) (f : DmapFile) :
    Except PyErr (DataPtr × PyDict × PyDict) :=
  let starting_offset := p.pos
  match createIndexDmapScan p.sTime p.eTime f.recs 0 [] [] with
  | .error err => .error err
  | .ok (recordDict, scanStartDict) =>
      let p1 := { p with pos := totalLen f, recordIndex := some recordDict }
      let p2 := if starting_offset ∈ dvalues recordDict
                then { p1 with pos := starting_offset } else p1
      .ok ({ p2 with scanStartIndex := some scanStartDict },
           recordDict, scanStartDict)

/-- Embedding of `__offsetSeekDmap` (lines 202-220).  Forced: seek
unconditionally (the codec seek returns the new offset).  Non-forced: build
the index first when there is none, then seek only if the offset is among the
indexed values, else return the current offset unchanged. -/
def offsetSeekDmap (p : DataPtr) (f : DmapFile) (offset : Nat) (force : Bool) :
    Except PyErr (DataPtr × Nat) :=
  if force then .ok ({ p with pos := offset }, offset)
  else
    match p.recordIndex with
    | some d =>
        if offset ∈ dvalues d then .ok ({ p with pos := offset }, offset)
        else .ok (p, p.pos)
    | none =>
        match createIndexDmap p f with
        | .error err => .error err
        | .ok (p1, recordDict, _) =>
            if offset ∈ dvalues recordDict then .ok ({ p1 with pos := offset }, offset)
            else .ok (p1, p1.pos)

/-- Embedding of `__offsetTellDmap` (lines 222-232). -/
def offsetTellDmap (p : DataPtr) : Nat := p.pos

/-- Embedding of `__rewindDmap` (lines 234-242): seek to 0, returning the
codec seek result. -/
def rewindDmap (p : DataPtr) : DataPtr × Nat := ({ p with pos := 0 }, 0)

/-- The decode loop of `__readDmap` (lines 269-281) over the records of the
file, tracking the absolute start offset `off` of the first record of the
remaining list and the current stream position `pos`.  A record decodes when
the position equals its start offset; decoding moves the position past it.
If the position is past the current record, scanning continues with the next
one; if it is strictly inside a record block (or past all data) the codec
reports end-of-stream and the position stays put.  A decoded record first
meets `if dfile == None or utcfromtimestamp(time) > eTime` (TypeError when
eTime is None, short-circuit as in the index scan), then the window test,
else the loop continues. -/
def readDmapFrom (s : Int) :
    Option Int → List (DmapRec × Nat) → Nat → Nat →
    Except PyErr (Option DmapRec × Nat)
  | _, [], _, pos => .ok (none, pos)
  | none, (_, len) :: rest, off, pos =>
      if pos = off then .error .typeError
      else if off < pos then readDmapFrom s none rest (off + len) pos
      else .ok (none, pos)
  | some e, (r, len) :: rest, off, pos =>
      if pos = off then
        if e < r.time then .ok (none, off + len)
        else if s ≤ r.time ∧ r.time ≤ e then .ok (some r, off + len)
        else readDmapFrom s (some e) rest (off + len) (off + len)
      else if off < pos then readDmapFrom s (some e) rest (off + len) pos
      else .ok (none, pos)

/-- Embedding of `__readDmap` (lines 244-281): with no open pointer it prints
and returns None; otherwise it loops decoding records from the current
position, returning None at end-of-stream or at the first record past eTime,
and returning the first record inside the window. -/
def readDmap (p : DataPtr) (f : DmapFile) :
    Except PyErr (DataPtr × Option DmapRec) :=
  if p.opened then
    match readDmapFrom p.sTime p.eTime f.recs 0 p.pos with
    | .error err => .error err
    | .ok (res, pos') => .ok ({ p with pos := pos' }, res)
  else .ok (p, none)

/-- A tokenized textual (json) record: the seven time sub-fields (keys
time.yr, time.mo, time.dy, time.hr, time.mt, time.sc, time.us) and the scan
flag, as `json.loads` would deliver them. -/
structure JsonRec where
  yr : Int
  mo : Int
  dy : Int
  hr : Int
  mt : Int
  sc : Int
  us : Int
  scan : Int
  deriving DecidableEq, Repr

/-- A Python value that can end up stored under the time key of a record:
either a number of seconds since the Unix epoch (what every caller of
`utcfromtimestamp` needs), or a `datetime.timedelta` object (represented by
its total microseconds). -/
inductive PyTime where
  | epochSecs (s : Int)
  | timedelta (us : Int)
  deriving DecidableEq, Repr

/-- Result of resolving a Python name through the local, enclosing, global
and builtin scopes. -/
inductive ScopeLookup where
  | found
  | unbound
  deriving DecidableEq, Repr

/-- Resolution of the name `f` at line 422 (`line = f.next()`):
`__read_json_rec(self)` has no parameter or prior local named f, the module
defines no global f, and no builtin f exists, so the name is unbound. -/
def lookupNameF : ScopeLookup := .unbound

/-- Resolution of the name `datetime` at lines 440-441: the function imports
only json; the module level imports nothing called datetime (other methods
bind the local alias dt instead); no builtin datetime exists. -/
def lookupNameDatetime : ScopeLookup := .unbound

/-- Modelled from the spec: the number of days from 1970-01-01 to the civil
date y-m-d in the proleptic Gregorian calendar, which is what the Python
subtraction `datetime(y,m,d,...) - datetime(1970,1,1)` counts. -/
def daysFromCivil (y m d : Int) : Int :=
  let yAdj := if m ≤ 2 then y - 1 else y
  let era := (if 0 ≤ yAdj then yAdj else yAdj - 399) / 400
  let yoe := yAdj - era * 400
  let mp := (m + 9) % 12
  let doy := (153 * mp + 2) / 5 + d - 1
  let doe := yoe * 365 + yoe / 4 - yoe / 100 + doy
  era * 146097 + doe - 719468

/-- Modelled from the spec: total microseconds of the timedelta
`datetime(y,mo,dy,hr,mt,sc,us) - datetime(1970,1,1)`. -/
def epochMicros (y mo dy hr mt sc us : Int) : Int :=
  (((daysFromCivil y mo dy * 24 + hr) * 60 + mt) * 60 + sc) * 1000000 + us

/-- Embedding of `__read_json_rec` (lines 406-444).  Its first statement is
`line = f.next()`, and the name f is unbound (see `lookupNameF`), so every
call raises NameError before touching the stream.  The never-reached
continuation transcribes the rest of the function: accumulate lines until
`json.loads` parses one record (the external tokenizer, modelled as the next
element of `tokens`; exhaustion of the line iterator raises StopIteration),
then look up the six-plus-one time sub-fields, build
`time = datetime(yr,mon,dy,hr,m,s,us) - datetime(1970,1,1)` (a timedelta;
the name datetime is itself unbound, see `lookupNameDatetime`), compute
`epoch = time.total_seconds()` into a variable that is never used again, and
store the timedelta object - not epoch - under the time key. -/
def read_json_rec (tokens : List JsonRec) :
    Except PyErr ((JsonRec × PyTime) × List JsonRec) :=
  match lookupNameF with
  | .unbound => .error .nameError
  | .found =>
      match tokens with
      | [] => .error .stopIteration
      | j :: rest =>
          match lookupNameDatetime with
          | .unbound => .error .nameError
          | .found =>
              .ok ((j, .timedelta (epochMicros j.yr j.mo j.dy j.hr j.mt j.sc j.us)),
                   rest)

/-- Embedding of `__createIndexJson` (lines 289-327): save the offset, seek
to 0, then in the first loop iteration note the offset and call
`self.__read_json_rec()` - which raises NameError on every call, so the
exception propagates out of createIndex before any record is indexed. -/
def createIndexJson (p : DataPtr) (tokens : List JsonRec) :
    Except PyErr (DataPtr × PyDict × PyDict) :=
  match read_json_rec tokens with
  | .error err => .error err
  | .ok _ =>
      -- never reached: read_json_rec raises on every input
      .error .nameError

/-- Embedding of `__offsetSeekJson` (lines 330-344).  Forced: `self._ptr.seek
(offset)`, whose Python 2 return value is None.  Non-forced with no index:
line 340 reads `self.__createIndexDmap()` - the binary-codec index builder,
not the json one - so the index is built by the dmap codec over the dmap
interpretation `dmapView` of the underlying bytes; then the membership test
on the (new) index values decides between seeking (returning None) and
returning the current offset from `self._ptr.tell()`. -/
def offsetSeekJson (p : DataPtr) (dmapView : DmapFile) (offset : Nat)
    (force : Bool) : Except PyErr (DataPtr × Option Nat) :=
  if force then .ok ({ p with pos := offset }, none)
  else
    match p.recordIndex with
    | some d =>
        if offset ∈ dvalues d then .ok ({ p with pos := offset }, none)
        else .ok (p, some p.pos)
    | none =>
        match createIndexDmap p dmapView with
        | .error err => .error err
        | .ok (p1, recordDict, _) =>
            if offset ∈ dvalues recordDict then .ok ({ p1 with pos := offset }, none)
            else .ok (p1, some p1.pos)

/-- Embedding of `__offsetTellJson` (lines 347-352). -/
def offsetTellJson (p : DataPtr) : Nat := p.pos

/-- Embedding of `__rewindJson` (lines 355-366): seek to 0, True on success. -/
def rewindJson (p : DataPtr) : DataPtr × Bool := ({ p with pos := 0 }, true)

/-- Embedding of `__readJson` (lines 368-404): with no open pointer it prints
and returns None; otherwise the loop body calls
`self.__read_json_rec(self._ptr)`, passing one positional argument to a
method declared with none, which raises TypeError at the call site on every
iteration - before end-of-stream or any window test can be reached. -/
def readJson (p : DataPtr) : Except PyErr (DataPtr × Option (JsonRec × PyTime)) :=
  if p.opened then .error .typeError
  else .ok (p, none)

/-- The createIndex method binding performed by `__init__` (lines 96-97 and
129): `self.createIndex = __createIndex[dataType]`, dispatching once on the
immutable dataType; a dataType outside the dictionary would have failed the
constructor assertion (a direct dictionary lookup would raise KeyError). -/
def DataPtr.createIndex (p : DataPtr) (dmapView : DmapFile)
    (jsonView : List JsonRec) : Except PyErr (DataPtr × PyDict × PyDict) :=
  match p.dType with
  | .dmap => createIndexDmap p dmapView
  | .json => createIndexJson p jsonView
  | .other => .error .keyError

/-- The entries `(time, offset)` that the dmap index scan appends for the
in-window records of a record list whose first record starts at `off`
(specification of the scan when no timestamp repeats). -/
def winEntries (s e : Int) : List (DmapRec × Nat) → Nat → PyDict
  | [], _ => []
  | (r, len) :: rest, off =>
      (if s ≤ r.time ∧ r.time ≤ e then [(r.time, off)] else []) ++
        winEntries s e rest (off + len)

/-- The entries the scan appends to scanStartDict: in-window records whose
scan flag is 1. -/
def scanEntries (s e : Int) : List (DmapRec × Nat) → Nat → PyDict
  | [], _ => []
  | (r, len) :: rest, off =>
      (if s ≤ r.time ∧ r.time ≤ e ∧ r.scan = 1 then [(r.time, off)] else []) ++
        scanEntries s e rest (off + len)

/-- An open json-format reader with a window set (used to exercise read). -/
def pC1 : DataPtr :=
  { sTime := 10, eTime := some 20, dType := .json, recordIndex := none,
    scanStartIndex := none, opened := true, pos := 0 }

/-- An open dmap reader positioned at byte 0 with window [10, 20]. -/
def pC3 : DataPtr :=
  { sTime := 10, eTime := some 20, dType := .dmap, recordIndex := none,
    scanStartIndex := none, opened := true, pos := 0 }

/-- A dmap file whose first record (offset 0, length 5) is before the window
and whose second record (offset 5, length 5) is inside it. -/
def fC3 : DmapFile := ⟨[(⟨0, 0⟩, 5), (⟨15, 1⟩, 5)]⟩

/-- The reader state `createIndexDmap pC3 fC3` produces: the index holds only
offset 5, the saved origin 0 is not an indexed offset, so the non-forced
restore seek is refused and the cursor stays at end-of-data (byte 10). -/
def pC3' : DataPtr :=
  { sTime := 10, eTime := some 20, dType := .dmap,
    recordIndex := some [(15, 5)], scanStartIndex := some [(15, 5)],
    opened := true, pos := 10 }

/-- An open json reader, no index yet, cursor at byte 7. -/
def pC6 : DataPtr :=
  { sTime := 10, eTime := some 20, dType := .json, recordIndex := none,
    scanStartIndex := none, opened := true, pos := 7 }

/-- The dmap-codec interpretation of the json text file: the binary decoder
finds no record in it. -/
def fC6 : DmapFile := ⟨[]⟩

/-- The json-codec interpretation of the same file: one tokenizable record
inside the window. -/
def toksC6 : List JsonRec := [⟨2012, 11, 24, 4, 4, 39, 141000, 1⟩]

/-- State after `offsetSeekJson pC6 fC6 3 false`: the index was built by the
dmap codec (empty), and the cursor ended at 0. -/
def pC6' : DataPtr :=
  { sTime := 10, eTime := some 20, dType := .json, recordIndex := some [],
    scanStartIndex := some [], opened := true, pos := 0 }

/-- A dmap file holding two records with the same timestamp 15: the first
(offset 0) starts a scan, the second (offset 4) does not. -/
def fC7 : DmapFile := ⟨[(⟨15, 1⟩, 4), (⟨15, 0⟩, 4)]⟩

/-- An open dmap reader for the duplicate-timestamp file. -/
def pC7 : DataPtr :=
  { sTime := 10, eTime := some 20, dType := .dmap, recordIndex := none,
    scanStartIndex := none, opened := true, pos := 0 }

/-- State after `createIndexDmap pC7 fC7`: recordIndex maps 15 to the second
record offset 4 (last write wins) while scanStartIndex still maps 15 to 0. -/
def pC7' : DataPtr :=
  { sTime := 10, eTime := some 20, dType := .dmap,
    recordIndex := some [(15, 4)], scanStartIndex := some [(15, 0)],
    opened := true, pos := 8 }

/-- The reader the constructor returns for sTime 100, eTime 0 (inverted
window), dmap dataType. -/
def pC8 : DataPtr :=
  { sTime := 100, eTime := some 0, dType := .dmap, recordIndex := none,
    scanStartIndex := none, opened := false, pos := 0 }

/-- An open dmap reader constructed with eTime = None. -/
def pC9 : DataPtr :=
  { sTime := 10, eTime := none, dType := .dmap, recordIndex := none,
    scanStartIndex := none, opened := true, pos := 0 }

/-- A dmap file with one record at or after sTime. -/
def fC9 : DmapFile := ⟨[(⟨50, 0⟩, 5)]⟩

/-- A json record list for exercising the record tokenizer. -/
def toksC10 : List JsonRec := [⟨2012, 11, 24, 4, 4, 39, 141000, 1⟩]

/-- Witness reader for the createIndex window property. -/
def pW2 : DataPtr :=
  { sTime := 10, eTime := some 20, dType := .dmap, recordIndex := none,
    scanStartIndex := none, opened := true, pos := 0 }

/-- Witness file: one in-window record at offset 0 that is not a scan start. -/
def fW2 : DmapFile := ⟨[(⟨15, 0⟩, 5)]⟩

/-- Witness result state for `DataPtr.createIndex pW2 fW2 []`. -/
def pW2' : DataPtr :=
  { sTime := 10, eTime := some 20, dType := .dmap,
    recordIndex := some [(15, 0)], scanStartIndex := some [],
    opened := true, pos := 0 }

/-- Witness reader for the seek/read round-trip. -/
def pW4 : DataPtr :=
  { sTime := 10, eTime := some 20, dType := .dmap, recordIndex := none,
    scanStartIndex := none, opened := true, pos := 0 }

/-- Witness file: one in-window scan-start record at offset 0, length 5. -/
def fW4 : DmapFile := ⟨[(⟨15, 1⟩, 5)]⟩

/-- Witness result state for `createIndexDmap pW4 fW4`. -/
def pW4' : DataPtr :=
  { sTime := 10, eTime := some 20, dType := .dmap,
    recordIndex := some [(15, 0)], scanStartIndex := some [(15, 0)],
    opened := true, pos := 0 }

/-- Witness reader for seek refusal: an index exists mapping 15 to offset 3,
cursor at byte 9. -/
def pW5 : DataPtr :=
  { sTime := 10, eTime := some 20, dType := .dmap,
    recordIndex := some [(15, 3)], scanStartIndex := some [],
    opened := true, pos := 9 }

/-- Witness file for seek refusal (never consulted). -/
def fW5 : DmapFile := ⟨[]⟩

/-- Witness reader for the scanStarts relation. -/
def pW7 : DataPtr :=
  { sTime := 10, eTime := some 20, dType := .dmap, recordIndex := none,
    scanStartIndex := none, opened := true, pos := 0 }

/-- Witness file with distinct timestamps 15 (scan start) and 17. -/
def fW7 : DmapFile := ⟨[(⟨15, 1⟩, 5), (⟨17, 0⟩, 3)]⟩

/-- Witness result state for `createIndexDmap pW7 fW7`. -/
def pW7' : DataPtr :=
  { sTime := 10, eTime := some 20, dType := .dmap,
    recordIndex := some [(15, 0), (17, 5)], scanStartIndex := some [(15, 0)],
    opened := true, pos := 0 }

theorem mem_dinsert {d : PyDict} {k : Int} {v : Nat} :
    ∀ kv ∈ dinsert d k v, kv = (k, v) ∨ kv ∈ d := by
  induction d with
  | nil => intro kv h; simp [dinsert] at h; left; exact h
  | cons hd tl ih =>
      intro kv h
      obtain ⟨k', v'⟩ := hd
      simp only [dinsert] at h
      split at h
      · rcases List.mem_cons.mp h with h | h
        · left; exact h
        · right; exact List.mem_cons_of_mem _ h
      · rcases List.mem_cons.mp h with h | h
        · right; exact h ▸ List.mem_cons_self _ _
        · rcases ih kv h with h | h
          · left; exact h
          · right; exact List.mem_cons_of_mem _ h

theorem dinsert_of_not_mem {d : PyDict} {k : Int} {v : Nat}
    (h : k ∉ dkeys d) : dinsert d k v = d ++ [(k, v)] := by
  induction d with
  | nil => rfl
  | cons hd tl ih =>
      obtain ⟨k', v'⟩ := hd
      simp only [dkeys, List.map_cons, List.mem_cons] at h
      push_neg at h
      have hne : ¬ (k' = k) := fun he => h.1 he.symm
      simp only [dinsert, if_neg hne, List.cons_append, List.cons.injEq, true_and]
      exact ih h.2

theorem mem_dkeys_dinsert {d : PyDict} {k : Int} {v : Nat} {a : Int} :
    a ∈ dkeys (dinsert d k v) ↔ a = k ∨ a ∈ dkeys d := by
  induction d with
  | nil => simp [dinsert, dkeys]
  | cons hd tl ih =>
      obtain ⟨k', v'⟩ := hd
      simp only [dinsert]
      split
      case isTrue he => subst he; simp [dkeys]
      case isFalse he => simp [dkeys] at ih ⊢; rw [ih]; tauto

theorem dictWF_dinsert {d : PyDict} {k : Int} {v : Nat}
    (h : DictWF d) : DictWF (dinsert d k v) := by
  induction d with
  | nil => simp [dinsert, DictWF, dkeys]
  | cons hd tl ih =>
      obtain ⟨k', v'⟩ := hd
      simp only [DictWF, dkeys, List.map_cons, List.nodup_cons] at h
      obtain ⟨hk', hnd⟩ := h
      simp only [dinsert]
      split
      case isTrue he =>
          subst he
          simp only [DictWF, dkeys, List.map_cons, List.nodup_cons]
          exact ⟨hk', hnd⟩
      case isFalse he =>
          simp only [DictWF, dkeys, List.map_cons, List.nodup_cons]
          refine ⟨fun hc => ?_, ih hnd⟩
          rcases (mem_dkeys_dinsert (d := tl)).mp hc with hc | hc
          · exact he hc
          · exact hk' hc

theorem mem_dkeys_iff {d : PyDict} {a : Int} :
    a ∈ dkeys d ↔ ∃ v, (a, v) ∈ d := by
  simp only [dkeys, List.mem_map]
  constructor
  · rintro ⟨⟨k, v⟩, hm, rfl⟩; exact ⟨v, hm⟩
  · rintro ⟨v, hm⟩; exact ⟨(a, v), hm, rfl⟩

theorem mem_of_mem_dvalues {d : PyDict} {o : Nat}
    (h : o ∈ dvalues d) : ∃ k, (k, o) ∈ d := by
  simp only [dvalues, List.mem_map] at h
  obtain ⟨⟨k, v⟩, hm, rfl⟩ := h
  exact ⟨k, hm⟩

theorem dlookup_of_mem {d : PyDict} {k : Int} {v : Nat}
    (hwf : DictWF d) (h : (k, v) ∈ d) : dlookup d k = some v := by
  induction d with
  | nil => cases h
  | cons hd tl ih =>
      obtain ⟨k', v'⟩ := hd
      simp only [DictWF, dkeys, List.map_cons, List.nodup_cons] at hwf
      obtain ⟨hk', hnd⟩ := hwf
      rcases List.mem_cons.mp h with h | h
      · obtain ⟨h1, h2⟩ := Prod.mk.injEq .. ▸ h.symm
        simp [dlookup, h1, h2]
      · have hkk : k' ≠ k := by
          intro he
          exact hk' (he ▸ mem_dkeys_iff.mpr ⟨v, h⟩)
        simp only [dlookup, if_neg hkk]
        exact ih hnd h

theorem mem_of_dlookup {d : PyDict} {k : Int} {v : Nat}
    (h : dlookup d k = some v) : (k, v) ∈ d := by
  induction d with
  | nil => cases h
  | cons hd tl ih =>
      obtain ⟨k', v'⟩ := hd
      simp only [dlookup] at h
      split at h
      case isTrue he => cases h; exact he ▸ List.mem_cons_self _ _
      case isFalse he => exact List.mem_cons_of_mem _ (ih h)

theorem dkeys_append (d1 d2 : PyDict) :
    dkeys (d1 ++ d2) = dkeys d1 ++ dkeys d2 := List.map_append _ _ _

theorem prefLen_zero (l : List (DmapRec × Nat)) : prefLen l 0 = 0 := by
  cases l <;> rfl

theorem prefLen_cons (r : DmapRec) (len : Nat) (rest : List (DmapRec × Nat))
    (i : Nat) : prefLen ((r, len) :: rest) (i + 1) = len + prefLen rest i := rfl

theorem scan_mem_window (s e : Int) :
    ∀ (l : List (DmapRec × Nat)) (off : Nat) (rd sd rd' sd' : PyDict),
      createIndexDmapScan s (some e) l off rd sd = .ok (rd', sd') →
      ∀ k v, (k, v) ∈ rd' → (k, v) ∈ rd ∨
        ∃ i, ∃ hi : i < l.length, (l.get ⟨i, hi⟩).1.time = k ∧
          off + prefLen l i = v ∧ s ≤ k ∧ k ≤ e := by
  intro l
  induction l with
  | nil =>
      intro off rd sd rd' sd' h k v hm
      simp only [createIndexDmapScan, Except.ok.injEq, Prod.mk.injEq] at h
      obtain ⟨h1, _⟩ := h
      subst h1
      left
      exact hm
  | cons hd tl ih =>
      intro off rd sd rd' sd' h k v hm
      obtain ⟨r, len⟩ := hd
      simp only [createIndexDmapScan] at h
      split at h
      case isTrue hw =>
        rcases ih _ _ _ _ _ h k v hm with hin | ⟨i, hi, ht, hv, hs, he⟩
        · rcases mem_dinsert _ hin with heq | hin'
          · obtain ⟨h1, h2⟩ := Prod.mk.injEq .. ▸ heq
            right
            refine ⟨0, by simp, ?_, ?_, ?_, ?_⟩
            · simpa using h1.symm
            · simpa [prefLen_zero] using h2.symm
            · exact h1 ▸ hw.1
            · exact h1 ▸ hw.2
          · left; exact hin'
        · right
          refine ⟨i + 1, by simpa using Nat.succ_lt_succ hi, ?_, ?_, hs, he⟩
          · simpa using ht
          · rw [prefLen_cons]
            omega
      case isFalse hw =>
        rcases ih _ _ _ _ _ h k v hm with hin | ⟨i, hi, ht, hv, hs, he⟩
        · left; exact hin
        · right
          refine ⟨i + 1, by simpa using Nat.succ_lt_succ hi, ?_, ?_, hs, he⟩
          · simpa using ht
          · rw [prefLen_cons]
            omega

theorem scan_wf (s e : Int) :
    ∀ (l : List (DmapRec × Nat)) (off : Nat) (rd sd rd' sd' : PyDict),
      createIndexDmapScan s (some e) l off rd sd = .ok (rd', sd') →
      DictWF rd → DictWF sd → DictWF rd' ∧ DictWF sd' := by
  intro l
  induction l with
  | nil =>
      intro off rd sd rd' sd' h hrd hsd
      simp only [createIndexDmapScan, Except.ok.injEq, Prod.mk.injEq] at h
      obtain ⟨h1, h2⟩ := h
      subst h1
      subst h2
      exact ⟨hrd, hsd⟩
  | cons hd tl ih =>
      intro off rd sd rd' sd' h hrd hsd
      obtain ⟨r, len⟩ := hd
      simp only [createIndexDmapScan] at h
      split at h
      case isTrue hw =>
        refine ih _ _ _ _ _ h (dictWF_dinsert hrd) ?_
        split
        · exact dictWF_dinsert hsd
        · exact hsd
      case isFalse hw =>
        exact ih _ _ _ _ _ h hrd hsd

theorem scan_keys_sub (s e : Int) :
    ∀ (l : List (DmapRec × Nat)) (off : Nat) (rd sd rd' sd' : PyDict),
      createIndexDmapScan s (some e) l off rd sd = .ok (rd', sd') →
      (∀ k, k ∈ dkeys sd → k ∈ dkeys rd) →
      ∀ k, k ∈ dkeys sd' → k ∈ dkeys rd' := by
  intro l
  induction l with
  | nil =>
      intro off rd sd rd' sd' h hsub k hk
      simp only [createIndexDmapScan, Except.ok.injEq, Prod.mk.injEq] at h
      obtain ⟨h1, h2⟩ := h
      subst h1
      subst h2
      exact hsub k hk
  | cons hd tl ih =>
      intro off rd sd rd' sd' h hsub k hk
      obtain ⟨r, len⟩ := hd
      simp only [createIndexDmapScan] at h
      split at h
      case isTrue hw =>
        refine ih _ _ _ _ _ h ?_ k hk
        intro a ha
        split at ha
        · rcases mem_dkeys_dinsert.mp ha with ha | ha
          · exact mem_dkeys_dinsert.mpr (Or.inl ha)
          · exact mem_dkeys_dinsert.mpr (Or.inr (hsub a ha))
        · exact mem_dkeys_dinsert.mpr (Or.inr (hsub a ha))
      case isFalse hw =>
        exact ih _ _ _ _ _ h hsub k hk

theorem scan_eq_entries (s e : Int) :
    ∀ (l : List (DmapRec × Nat)) (off : Nat) (rd sd : PyDict),
      (∀ q ∈ l, q.1.time ∉ dkeys rd) →
      (∀ q ∈ l, q.1.time ∉ dkeys sd) →
      (l.map (fun q => q.1.time)).Nodup →
      createIndexDmapScan s (some e) l off rd sd =
        .ok (rd ++ winEntries s e l off, sd ++ scanEntries s e l off) := by
  intro l
  induction l with
  | nil =>
      intro off rd sd _ _ _
      simp [createIndexDmapScan, winEntries, scanEntries]
  | cons hd tl ih =>
      intro off rd sd hrd hsd hnd
      obtain ⟨r, len⟩ := hd
      simp only [List.map_cons, List.nodup_cons, List.mem_map] at hnd
      obtain ⟨ht, hnd'⟩ := hnd
      have hfr : r.time ∉ dkeys rd := hrd (r, len) (List.mem_cons_self _ _)
      have hfs : r.time ∉ dkeys sd := hsd (r, len) (List.mem_cons_self _ _)
      have htimes : ∀ q ∈ tl, q.1.time ≠ r.time := by
        intro q hq he
        exact ht ⟨q, hq, he⟩
      simp only [createIndexDmapScan, winEntries, scanEntries]
      by_cases hw : s ≤ r.time ∧ r.time ≤ e
      · rw [if_pos hw]
        rw [dinsert_of_not_mem hfr]
        by_cases hs1 : r.scan = 1
        · rw [if_pos hs1, dinsert_of_not_mem hfs]
          rw [ih (off + len) (rd ++ [(r.time, off)]) (sd ++ [(r.time, off)])
              ?_ ?_ hnd']
          · rw [if_pos hw, if_pos ⟨hw.1, hw.2, hs1⟩]
            simp [List.append_assoc]
          · intro q hq
            rw [dkeys_append]
            simp only [List.mem_append]
            rintro (hc | hc)
            · exact hrd q (List.mem_cons_of_mem _ hq) hc
            · simp only [dkeys, List.map_cons, List.map_nil,
                List.mem_singleton] at hc
              exact htimes q hq hc
          · intro q hq
            rw [dkeys_append]
            simp only [List.mem_append]
            rintro (hc | hc)
            · exact hsd q (List.mem_cons_of_mem _ hq) hc
            · simp only [dkeys, List.map_cons, List.map_nil,
                List.mem_singleton] at hc
              exact htimes q hq hc
        · rw [if_neg hs1]
          rw [ih (off + len) (rd ++ [(r.time, off)]) sd ?_ ?_ hnd']
          · have hc3 : ¬ (s ≤ r.time ∧ r.time ≤ e ∧ r.scan = 1) := by
              rintro ⟨_, _, hc⟩; exact hs1 hc
            rw [if_pos hw, if_neg hc3]
            simp [List.append_assoc]
          · intro q hq
            rw [dkeys_append]
            simp only [List.mem_append]
            rintro (hc | hc)
            · exact hrd q (List.mem_cons_of_mem _ hq) hc
            · simp only [dkeys, List.map_cons, List.map_nil,
                List.mem_singleton] at hc
              exact htimes q hq hc
          · exact fun q hq => hsd q (List.mem_cons_of_mem _ hq)
      · rw [if_neg hw]
        have hc3 : ¬ (s ≤ r.time ∧ r.time ≤ e ∧ r.scan = 1) := by
          rintro ⟨h1, h2, _⟩; exact hw ⟨h1, h2⟩
        rw [ih (off + len) rd sd
            (fun q hq => hrd q (List.mem_cons_of_mem _ hq))
            (fun q hq => hsd q (List.mem_cons_of_mem _ hq)) hnd']
        rw [if_neg hw, if_neg hc3]
        simp

theorem mem_scanEntries_sub (s e : Int) :
    ∀ (l : List (DmapRec × Nat)) (off : Nat) (kv : Int × Nat),
      kv ∈ scanEntries s e l off → kv ∈ winEntries s e l off := by
  intro l
  induction l with
  | nil => intro off kv h; simp [scanEntries] at h
  | cons hd tl ih =>
      intro off kv h
      obtain ⟨r, len⟩ := hd
      simp only [scanEntries, winEntries, List.mem_append] at h ⊢
      rcases h with h | h
      · split at h
        case isTrue hc =>
            rw [if_pos ⟨hc.1, hc.2.1⟩]
            exact Or.inl h
        case isFalse hc => simp at h
      · exact Or.inr (ih _ kv h)

theorem dkeys_winEntries_sub (s e : Int) :
    ∀ (l : List (DmapRec × Nat)) (off : Nat) (k : Int),
      k ∈ dkeys (winEntries s e l off) → k ∈ l.map (fun q => q.1.time) := by
  intro l
  induction l with
  | nil => intro off k h; simp [winEntries, dkeys] at h
  | cons hd tl ih =>
      intro off k h
      obtain ⟨r, len⟩ := hd
      simp only [winEntries, dkeys_append, List.mem_append] at h
      simp only [List.map_cons, List.mem_cons]
      rcases h with h | h
      · split at h
        case isTrue hc =>
            simp only [dkeys, List.map_cons, List.map_nil,
              List.mem_singleton] at h
            exact Or.inl h
        case isFalse hc => simp [dkeys] at h
      · exact Or.inr (ih _ k h)

theorem winEntries_wf (s e : Int) :
    ∀ (l : List (DmapRec × Nat)) (off : Nat),
      (l.map (fun q => q.1.time)).Nodup → DictWF (winEntries s e l off) := by
  intro l
  induction l with
  | nil => intro off _; simp [winEntries, DictWF, dkeys]
  | cons hd tl ih =>
      intro off hnd
      obtain ⟨r, len⟩ := hd
      simp only [List.map_cons, List.nodup_cons] at hnd
      obtain ⟨ht, hnd'⟩ := hnd
      simp only [winEntries]
      split
      case isTrue hc =>
          simp only [DictWF, dkeys, List.map_cons, List.map_nil,
            List.singleton_append, List.nodup_cons]
          refine ⟨fun hc2 => ?_, ih _ hnd'⟩
          exact ht (dkeys_winEntries_sub s e tl (off + len) r.time hc2)
      case isFalse hc =>
          simp only [List.nil_append]
          exact ih _ hnd'

theorem mem_dkeys_scanEntries (s e : Int) :
    ∀ (l : List (DmapRec × Nat)) (off : Nat) (k : Int),
      k ∈ dkeys (scanEntries s e l off) ↔
        ∃ q ∈ l, q.1.time = k ∧ q.1.scan = 1 ∧ s ≤ k ∧ k ≤ e := by
  intro l
  induction l with
  | nil => intro off k; simp [scanEntries, dkeys]
  | cons hd tl ih =>
      intro off k
      obtain ⟨r, len⟩ := hd
      simp only [scanEntries, dkeys_append, List.mem_append, List.mem_cons]
      constructor
      · rintro (h | h)
        · split at h
          case isTrue hc =>
              simp only [dkeys, List.map_cons, List.map_nil,
                List.mem_singleton] at h
              subst h
              exact ⟨(r, len), Or.inl rfl, rfl, hc.2.2, hc.1, hc.2.1⟩
          case isFalse hc => simp [dkeys] at h
        · obtain ⟨q, hq, hprops⟩ := (ih _ k).mp h
          exact ⟨q, Or.inr hq, hprops⟩
      · rintro ⟨q, hq | hq, hprops⟩
        · subst hq
          obtain ⟨h1, h2, h3, h4⟩ := hprops
          subst h1
          left
          rw [if_pos ⟨h3, h4, h2⟩]
          simp [dkeys]
        · exact Or.inr ((ih _ k).mpr ⟨q, hq, hprops⟩)

theorem readDmapFrom_at_boundary (s e : Int) :
    ∀ (l : List (DmapRec × Nat)) (off i : Nat) (hi : i < l.length),
      (∀ q ∈ l, 0 < q.2) →
      s ≤ (l.get ⟨i, hi⟩).1.time → (l.get ⟨i, hi⟩).1.time ≤ e →
      readDmapFrom s (some e) l off (off + prefLen l i) =
        .ok (some (l.get ⟨i, hi⟩).1, off + prefLen l i + (l.get ⟨i, hi⟩).2) := by
  intro l
  induction l with
  | nil => intro off i hi; simp at hi
  | cons hd tl ih =>
      intro off i hi hlen hs he
      obtain ⟨r, len⟩ := hd
      cases i with
      | zero =>
          simp only [List.get] at hs he ⊢
          rw [prefLen_zero, Nat.add_zero]
          simp only [readDmapFrom, if_true]
          rw [if_neg (not_lt.mpr he)]
          rw [if_pos (show s ≤ r.time ∧ r.time ≤ e from ⟨hs, he⟩)]
      | succ i =>
          have hi' : i < tl.length := by simpa using Nat.lt_of_succ_lt_succ hi
          have hlen0 : 0 < len := hlen (r, len) (List.mem_cons_self _ _)
          simp only [List.get] at hs he ⊢
          rw [prefLen_cons]
          have hne : ¬ (off + (len + prefLen tl i) = off) := by omega
          have hlt : off < off + (len + prefLen tl i) := by omega
          simp only [readDmapFrom, if_neg hne, if_pos hlt]
          have := ih (off + len) i hi'
            (fun q hq => hlen q (List.mem_cons_of_mem _ hq)) hs he
          rw [show off + (len + prefLen tl i) = off + len + prefLen tl i by omega]
          exact this

theorem createIndexDmap_ok_inv {p p' : DataPtr} {f : DmapFile}
    {rd sd : PyDict} (h : createIndexDmap p f = .ok (p', rd, sd)) :
    createIndexDmapScan p.sTime p.eTime f.recs 0 [] [] = .ok (rd, sd) ∧
    p'.sTime = p.sTime ∧ p'.eTime = p.eTime ∧ p'.dType = p.dType ∧
    p'.opened = p.opened ∧ p'.recordIndex = some rd := by
  unfold createIndexDmap at h
  cases hscan : createIndexDmapScan p.sTime p.eTime f.recs 0 [] [] with
  | error err => rw [hscan] at h; cases h
  | ok pr =>
      obtain ⟨rd0, sd0⟩ := pr
      rw [hscan] at h
      simp only at h
      split at h
      all_goals
        simp only [Except.ok.injEq, Prod.mk.injEq] at h
        obtain ⟨hp, hrd, hsd⟩ := h
        subst hp
        subst hrd
        subst hsd
        exact ⟨rfl, rfl, rfl, rfl, rfl, rfl⟩

theorem createIndexJson_nameError (p : DataPtr) (tokens : List JsonRec) :
    createIndexJson p tokens = .error .nameError := rfl

/-- C1: the claim says read never returns a record before startTime and
returns the end-of-stream sentinel when the next record is past endTime or
the codec reports end-of-stream.  The dmap read does behave so, but for an
open json-format reader every read call raises TypeError - `__readJson`
passes `self._ptr` to `__read_json_rec`, a method declared with no parameter
besides self - so the json reader never returns the sentinel (nor any
record): the claim fails on the json half of the code. -/
theorem readJson_open_reader_raises_typeError :
    readJson pC1 = .error .typeError := rfl

/-- C3: the claim says createIndex restores the cursor via a forced seek so
offsetTell is preserved regardless of index membership.  On the dmap reader
pC3 (cursor at byte 0, whose record is outside the window) createIndexDmap
ends with the cursor at end-of-data byte 10, because the restore uses a
non-forced seek that refuses the non-indexed origin offset 0. -/
theorem createIndexDmap_cursor_not_restored :
    offsetTellDmap pC3 = 0 ∧
    createIndexDmap pC3 fC3 = .ok (pC3', [((15 : Int), (5 : Nat))], [(15, 5)]) ∧
    offsetTellDmap pC3' = 10 ∧
    offsetTellDmap pC3' ≠ offsetTellDmap pC3 :=
  ⟨rfl, rfl, rfl, by decide⟩

/-- C6: the claim says a json reader with no index builds the index with the
json codec during a non-forced seek.  In fact line 340 of the source calls
`__createIndexDmap`: on the json reader pC6 the seek succeeds and installs
the index the binary codec scanned out of the text file (empty, cursor moved
to 0), whereas the json index builder itself - what the claim prescribes -
raises NameError on the very same reader. -/
theorem offsetSeekJson_builds_index_with_dmap_codec :
    offsetSeekJson pC6 fC6 3 false = .ok (pC6', some 0) ∧
    pC6'.recordIndex = some [] ∧
    createIndexJson pC6 toksC6 = .error .nameError :=
  ⟨rfl, rfl, rfl⟩

/-- C8 counterexample: the claim says construction with startTime strictly
greater than endTime fails with InvalidWindow; in fact `DataPtr.__init__`
performs no window comparison and succeeds with sTime 100, eTime 0. -/
theorem init_accepts_inverted_window :
    (0 : Int) < 100 ∧ DataPtr.init 100 .dmap (some 0) = .ok pC8 :=
  ⟨by decide, rfl⟩

/-- C8 amended: construction never validates the window: for any supported
dataType and any bounds with endTime strictly below startTime, the
constructor succeeds and returns the reader with the inverted window
stored. -/
theorem init_no_window_validation (s e : Int) (d : DType)
    (hd : d ≠ DType.other) (hse : e < s) :
    DataPtr.init s d (some e) =
      .ok { sTime := s, eTime := some e, dType := d, recordIndex := none,
            scanStartIndex := none, opened := false, pos := 0 } := by
  cases d
  · rfl
  · rfl
  · exact absurd rfl hd

theorem init_no_window_validation_witness :
    DType.json ≠ DType.other ∧ (3 : Int) < 7 ∧
    DataPtr.init 7 .json (some 3) =
      .ok { sTime := 7, eTime := some 3, dType := .json, recordIndex := none,
            scanStartIndex := none, opened := false, pos := 0 } :=
  ⟨by decide, by decide, init_no_window_validation 7 3 .json (by decide) (by decide)⟩

/-- C9: the claim says an endTime of None makes the window unbounded above.
In fact on the dmap reader pC9 (eTime None) both read and createIndex raise
TypeError as soon as a record at or after sTime is decoded, because Python 2
refuses to order a datetime against None (`time > self.eTime` in read,
`time <= self.eTime` in the index scan). -/
theorem endTime_none_raises_typeError :
    readDmap pC9 fC9 = .error .typeError ∧
    createIndexDmap pC9 fC9 = .error .typeError :=
  ⟨rfl, rfl⟩

/-- C10: the claim says every successfully tokenized json record gets its
time field synthesized from the seven sub-fields as an epoch-relative
timestamp.  In fact `__read_json_rec` raises NameError on every call - its
first statement reads the unbound name f - so no record is ever tokenized
(and the never-reached synthesis code would store the timedelta object
rather than the numeric epoch value it computes into the dead variable
epoch). -/
theorem read_json_rec_always_nameError :
    read_json_rec toksC10 = .error .nameError ∧
    read_json_rec [] = .error .nameError :=
  ⟨rfl, rfl⟩

/-- C5: once an index exists, a non-forced offsetSeek to an offset absent
from the index value set returns the current offset unchanged and leaves the
reader state (in particular the cursor, hence offsetTell) untouched, for
both the dmap and the json method. -/
theorem offsetSeek_refused_returns_unchanged (p : DataPtr) (f : DmapFile)
    (d : PyDict) (o : Nat)
    (hIdx : p.recordIndex = some d) (hO : o ∉ dvalues d) :
    offsetSeekDmap p f o false = .ok (p, p.pos) ∧
    offsetSeekJson p f o false = .ok (p, some p.pos) := by
  constructor
  · unfold offsetSeekDmap
    rw [if_neg (by simp)]
    rw [hIdx]
    simp [hO]
  · unfold offsetSeekJson
    rw [if_neg (by simp)]
    rw [hIdx]
    simp [hO]

theorem offsetSeek_refused_returns_unchanged_witness :
    pW5.recordIndex = some [((15 : Int), (3 : Nat))] ∧
    (4 : Nat) ∉ dvalues [((15 : Int), (3 : Nat))] ∧
    (offsetSeekDmap pW5 fW5 4 false = .ok (pW5, pW5.pos) ∧
     offsetSeekJson pW5 fW5 4 false = .ok (pW5, some pW5.pos)) :=
  ⟨rfl, by decide,
   offsetSeek_refused_returns_unchanged pW5 fW5 [(15, 3)] 4 rfl (by decide)⟩

/-- C2: whichever codec the reader was constructed with, whenever
createIndex returns, every timestamp key of the returned (and stored)
recordIndex lies inside the inclusive window [sTime, eTime]; records outside
the window are never inserted.  (For the json dataType createIndex never
returns - it raises NameError - so the dmap scan is the only way an index is
produced.) -/
theorem createIndex_keys_within_window (p p' : DataPtr) (fd : DmapFile)
    (toks : List JsonRec) (rd sd : PyDict) (e : Int)
    (hE : p.eTime = some e)
    (h : DataPtr.createIndex p fd toks = .ok (p', rd, sd)) :
    ∀ k ∈ dkeys rd, p.sTime ≤ k ∧ k ≤ e := by
  intro k hk
  unfold DataPtr.createIndex at h
  cases hdt : p.dType
  case dmap =>
    rw [hdt] at h
    obtain ⟨hscan, _⟩ := createIndexDmap_ok_inv h
    rw [hE] at hscan
    obtain ⟨v, hv⟩ := mem_dkeys_iff.mp hk
    rcases scan_mem_window p.sTime e fd.recs 0 [] [] rd sd hscan k v hv with
      hin | ⟨i, hi, _, _, hs, he⟩
    · cases hin
    · exact ⟨hs, he⟩
  case json =>
    rw [hdt] at h
    rw [createIndexJson_nameError] at h
    cases h
  case other =>
    rw [hdt] at h
    cases h

theorem createIndex_keys_within_window_witness :
    pW2.eTime = some 20 ∧
    DataPtr.createIndex pW2 fW2 [] = .ok (pW2', [((15 : Int), (0 : Nat))], []) ∧
    ∀ k ∈ dkeys [((15 : Int), (0 : Nat))], pW2.sTime ≤ k ∧ k ≤ 20 :=
  ⟨rfl, rfl,
   createIndex_keys_within_window pW2 pW2' fW2 [] [(15, 0)] [] 20 rfl rfl⟩

/-- C7 counterexample: the claim says scanStartIndex and recordIndex assign
every shared key the same byte offset.  On the file fC7, holding two
in-window records with the same timestamp 15 (scan flags 1 then 0),
createIndexDmap maps 15 to offset 4 in recordIndex (last write wins) but to
offset 0 in scanStartIndex. -/
theorem scanStarts_value_mismatch :
    createIndexDmap pC7 fC7 = .ok (pC7', [((15 : Int), (4 : Nat))], [(15, 0)]) ∧
    dlookup [((15 : Int), (4 : Nat))] 15 = some 4 ∧
    dlookup [((15 : Int), (0 : Nat))] 15 = some 0 ∧
    (4 : Nat) ≠ 0 :=
  ⟨rfl, rfl, rfl, by decide⟩

/-- C7 amended: after createIndexDmap, every key of scanStartIndex is a key
of recordIndex; and provided no two records of the file share a timestamp,
both maps assign each scanStartIndex key the same byte offset, and the keys
of scanStartIndex are exactly the in-window records whose scan flag is 1.
(With duplicate timestamps the offsets can disagree, as the counterexample
shows; and for the json dataType createIndex never returns.) -/
theorem scanStarts_subset_amended (p p' : DataPtr) (f : DmapFile)
    (rd sd : PyDict) (e : Int)
    (hE : p.eTime = some e)
    (hIdx : createIndexDmap p f = .ok (p', rd, sd)) :
    (∀ k ∈ dkeys sd, k ∈ dkeys rd) ∧
    ((f.recs.map (fun q => q.1.time)).Nodup →
      (∀ k v, dlookup sd k = some v → dlookup rd k = some v) ∧
      (∀ k, k ∈ dkeys sd ↔ ∃ q ∈ f.recs, q.1.time = k ∧ q.1.scan = 1 ∧
        p.sTime ≤ k ∧ k ≤ e)) := by
  obtain ⟨hscan, _⟩ := createIndexDmap_ok_inv hIdx
  rw [hE] at hscan
  constructor
  · exact scan_keys_sub p.sTime e f.recs 0 [] [] rd sd hscan
      (by intro k hk; cases hk)
  · intro hnd
    have heq := scan_eq_entries p.sTime e f.recs 0 [] []
      (by intro q _ hc; cases hc) (by intro q _ hc; cases hc) hnd
    rw [heq] at hscan
    simp only [List.nil_append, Except.ok.injEq, Prod.mk.injEq] at hscan
    obtain ⟨hrd, hsd⟩ := hscan
    subst hrd
    subst hsd
    constructor
    · intro k v hv
      have hmem := mem_of_dlookup hv
      have hwin := mem_scanEntries_sub p.sTime e f.recs 0 (k, v) hmem
      exact dlookup_of_mem (winEntries_wf p.sTime e f.recs 0 hnd) hwin
    · intro k
      exact mem_dkeys_scanEntries p.sTime e f.recs 0 k

theorem scanStarts_subset_amended_witness :
    pW7.eTime = some 20 ∧
    createIndexDmap pW7 fW7 =
      .ok (pW7', [((15 : Int), (0 : Nat)), (17, 5)], [(15, 0)]) ∧
    ((∀ k ∈ dkeys [((15 : Int), (0 : Nat))],
        k ∈ dkeys [((15 : Int), (0 : Nat)), (17, 5)]) ∧
     ((fW7.recs.map (fun q => q.1.time)).Nodup →
       (∀ k v, dlookup [((15 : Int), (0 : Nat))] k = some v →
         dlookup [((15 : Int), (0 : Nat)), (17, 5)] k = some v) ∧
       (∀ k, k ∈ dkeys [((15 : Int), (0 : Nat))] ↔
         ∃ q ∈ fW7.recs, q.1.time = k ∧ q.1.scan = 1 ∧
           pW7.sTime ≤ k ∧ k ≤ 20))) :=
  ⟨rfl, rfl,
   scanStarts_subset_amended pW7 pW7' fW7 [(15, 0), (17, 5)] [(15, 0)] 20 rfl rfl⟩

theorem readDmap_eval {p : DataPtr} {f : DmapFile} {res : Option DmapRec}
    {pos' : Nat} (hop : p.opened = true)
    (h : readDmapFrom p.sTime p.eTime f.recs 0 p.pos = .ok (res, pos')) :
    readDmap p f = .ok ({ p with pos := pos' }, res) := by
  unfold readDmap
  rw [if_pos hop, h]

/-- C4: for any offset o among the values of the index built by
createIndexDmap, a non-forced offsetSeek succeeds and repositions to o, and
the following read returns a record whose timestamp is exactly the key that
the index maps to o.  (The record lengths are positive, as every byte-framed
record is, and the window has an upper bound, since reading raises TypeError
otherwise.) -/
theorem offsetSeek_read_roundtrip (p p' : DataPtr) (f : DmapFile)
    (rd sd : PyDict) (e : Int) (o : Nat)
    (hlen : ∀ q ∈ f.recs, 0 < q.2)
    (hE : p.eTime = some e)
    (hOpen : p.opened = true)
    (hIdx : createIndexDmap p f = .ok (p', rd, sd))
    (hO : o ∈ dvalues rd) :
    offsetSeekDmap p' f o false = .ok ({ p' with pos := o }, o) ∧
    ∃ k r pos2, dlookup rd k = some o ∧
      readDmap { p' with pos := o } f = .ok ({ p' with pos := pos2 }, some r) ∧
      r.time = k := by
  obtain ⟨hscan, hS, hEe, _, hOp, hRI⟩ := createIndexDmap_ok_inv hIdx
  constructor
  · unfold offsetSeekDmap
    rw [if_neg (by simp)]
    rw [hRI]
    simp [hO]
  · rw [hE] at hscan
    obtain ⟨k, hkv⟩ := mem_of_mem_dvalues hO
    have hwf : DictWF rd :=
      (scan_wf p.sTime e f.recs 0 [] [] rd sd hscan List.nodup_nil
        List.nodup_nil).1
    have hlk : dlookup rd k = some o := dlookup_of_mem hwf hkv
    rcases scan_mem_window p.sTime e f.recs 0 [] [] rd sd hscan k o hkv with
      hin | ⟨i, hi, htime, hoff, hs, he⟩
    · cases hin
    · refine ⟨k, (f.recs.get ⟨i, hi⟩).1, o + (f.recs.get ⟨i, hi⟩).2, hlk,
        ?_, htime⟩
      have hb := readDmapFrom_at_boundary p.sTime e f.recs 0 i hi hlen
        (htime.symm ▸ hs) (htime.symm ▸ he)
      rw [hoff] at hb
      have hop2 : ({ p' with pos := o } : DataPtr).opened = true := by
        simp only [hOp]
        exact hOpen
      have hread : readDmapFrom p'.sTime p'.eTime f.recs 0 o =
          .ok (some (f.recs.get ⟨i, hi⟩).1, o + (f.recs.get ⟨i, hi⟩).2) := by
        rw [hS, hEe, hE]
        exact hb
      exact readDmap_eval hop2 hread

theorem offsetSeek_read_roundtrip_witness :
    (∀ q ∈ fW4.recs, 0 < q.2) ∧
    pW4.eTime = some 20 ∧ pW4.opened = true ∧
    createIndexDmap pW4 fW4 = .ok (pW4', [((15 : Int), (0 : Nat))], [(15, 0)]) ∧
    (0 : Nat) ∈ dvalues [((15 : Int), (0 : Nat))] ∧
    (offsetSeekDmap pW4' fW4 0 false = .ok ({ pW4' with pos := 0 }, 0) ∧
     ∃ k r pos2, dlookup [((15 : Int), (0 : Nat))] k = some 0 ∧
       readDmap { pW4' with pos := 0 } fW4 = .ok ({ pW4' with pos := pos2 }, some r) ∧
       r.time = k) :=
  ⟨by decide, rfl, rfl, rfl, by decide,
   offsetSeek_read_roundtrip pW4 pW4' fW4 [(15, 0)] [(15, 0)] 20 0
     (by decide) rfl rfl rfl (by decide)⟩
